import Mathlib

/-!
CodeForge — verification of the template and configuration resolution engine

Shallow embedding of the CodeForge project scaffolding tool
(`src/codeforge.py`, `src/modules/classes.py`, `src/modules/functions.py`,
`src/modules/create_project.py`, `src/modules/create_template.py`).

Modelling conventions:
* Python dictionaries become association lists preserving insertion order
  (`dictSet` updates in place or appends, like CPython dicts).
* The filesystem is a pair of association lists: file path to raw contents
  (a string of bytes), and a list of directory paths.  `os.path.abspath` of a
  path relative to the working directory is modelled by the canonical
  relative form without the leading dot component, so `abspath("./x/y")`,
  `"./x/y"` and `"x/y"` all denote the key `"x/y"`.
* External commands (`os.system`, the `dotnet` generator, `git`, editors)
  are collaborators: they are recorded in an event trace, and the `dotnet`
  filesystem effect of the generator is an explicit function parameter.
* Python exceptions become `Except` errors; `exit()` becomes a
  `systemExit` error carrying the printed message.
-/

namespace CodeForge

/-! ## Python-style primitive operations -/

/-- Python `str.lower` (the relevant alphabet here is ASCII). -/
def strLower (s : String) : String := String.mk (s.data.map Char.toLower)

/-- Python `str.startswith pat`: the first `pat.length` characters equal `pat`. -/
def pyStartsWith (s pat : String) : Bool :=
  decide (s.data.take pat.data.length = pat.data)

/-- Line splitting as Python `file.readlines()` performs it: lines keep their
trailing newline; a final fragment without a newline is kept as-is. -/
def readlinesChars : List Char → List Char → List (List Char)
  | [], acc => if acc.isEmpty then [] else [acc.reverse]
  | c :: rest, acc =>
    if c = '\n' then (acc.reverse ++ ['\n']) :: readlinesChars rest []
    else readlinesChars rest (c :: acc)

/-- Python `readlines` on a whole file content string. -/
def pyReadlines (s : String) : List String :=
  (readlinesChars s.data []).map String.mk

/-- Python `str.replace pat repl` for a non-empty `pat`: leftmost,
non-overlapping replacement.  (For the empty pattern Python interleaves the
replacement everywhere; that case never arises in this program.) -/
def replaceChars (pat repl : List Char) : List Char → List Char
  | [] => []
  | c :: rest =>
    if _h : 0 < pat.length ∧ pat.isPrefixOf (c :: rest) then
      repl ++ replaceChars pat repl (List.drop pat.length (c :: rest))
    else
      c :: replaceChars pat repl rest
termination_by l => l.length
decreasing_by
  · simp only [List.length_drop, List.length_cons]
    omega
  · simp only [List.length_cons]
    omega

/-- Python `str.replace`. -/
def pyReplace (s pat repl : String) : String :=
  String.mk (replaceChars pat.data repl.data s.data)

/-- `os.path.join a b` (no component here is absolute). -/
def pathJoin (a b : String) : String := a ++ "/" ++ b

/-! ## Association lists modelling Python dicts -/

/-- Python dict read (`d[k]` / `d.get(k)`). -/
def dictGet {α : Type} : List (String × α) → String → Option α
  | [], _ => none
  | (k, v) :: rest, key => if key = k then some v else dictGet rest key

/-- Python `key in d`. -/
def dictHas {α : Type} (l : List (String × α)) (k : String) : Bool :=
  (dictGet l k).isSome

/-- Python dict write `d[k] = v`: updates in place, or appends a new key at
the end (CPython insertion order). -/
def dictSet {α : Type} : List (String × α) → String → α → List (String × α)
  | [], key, v => [(key, v)]
  | (k, w) :: rest, key, v =>
    if key = k then (k, v) :: rest else (k, w) :: dictSet rest key v

/-! ## Filesystem model -/

/-- The filesystem: files keyed by path holding raw content strings, plus a
set (list) of directory paths. -/
structure FS where
  files : List (String × String)
  dirs : List String
deriving DecidableEq, Repr

/-- `open(p).read()`-style lookup; `none` means the file is absent. -/
def FS.readFile (fs : FS) (p : String) : Option String := dictGet fs.files p

/-- `open(p, "w"/"w+").write(c)`: truncate-or-create. -/
def FS.writeFile (fs : FS) (p c : String) : FS :=
  { fs with files := dictSet fs.files p c }

/-- `os.path.exists p`: true for files and directories alike. -/
def FS.existsPath (fs : FS) (p : String) : Bool :=
  dictHas fs.files p || fs.dirs.contains p

/-- `os.makedirs(p, exist_ok=True)` (also the behaviour of plain `makedirs`
when the leaf is known absent). -/
def FS.makedirs (fs : FS) (p : String) : FS :=
  if fs.dirs.contains p then fs else { fs with dirs := fs.dirs ++ [p] }

/-- `os.remove p` effect on the file table (the caller models the
`FileNotFoundError` case separately). -/
def FS.removeFile (fs : FS) (p : String) : FS :=
  { fs with files := fs.files.filter (fun kv => !(kv.1 = p)) }

/-- `shutil.rmtree p` on a directory `p`: removes `p` and everything below
it. -/
def FS.rmtree (fs : FS) (p : String) : FS :=
  { files := fs.files.filter
      (fun kv => !(kv.1 = p || (p ++ "/").isPrefixOf kv.1)),
    dirs := fs.dirs.filter
      (fun d => !(d = p || (p ++ "/").isPrefixOf d)) }

/-! ## Data model (src/modules/classes.py, config schema) -/

/-- `Language` (src/modules/classes.py:1-35): `__init__` lowercases `name`,
`language` and `extension`, registers the object, and then (the object being
shared by reference with the registry) normalizes a non-`None` shebang to
start with `"#!"`. -/
structure Language where
  name : String
  language : String
  extension : String
  shebang : Option String
  gitignore : String
deriving DecidableEq, Repr

/-- `IDE` (src/modules/classes.py:38-62): registered under its
`display_name`; `name` is lowercased. -/
structure IDE where
  display_name : String
  name : String
  open_command : Option String
deriving DecidableEq, Repr

/-- One entry of the `"languages"` section of `config.json`. -/
structure LangEntry where
  language : String
  extension : String
  shebang : Option String
  gitignore : Option String
deriving DecidableEq, Repr

/-- One entry of the `"ides"` section of `config.json`. -/
structure IdeEntry where
  name : String
  open_command : Option String
deriving DecidableEq, Repr

/-- The persisted `config.json` document (§6 of the spec; produced by
`generate_json`, src/codeforge.py:350-385). -/
structure Config where
  languages : List (String × LangEntry)
  ides : List (String × IdeEntry)
  defaults : List (String × List (String × String))
deriving DecidableEq, Repr

/-- The process state the core reads and writes: the filesystem, the
persisted `config.json` (`none` when the file is absent), the two class-level
registries `Language.languages` and `IDE.ides`, and `platform.system()`. -/
structure World where
  fs : FS
  config : Option Config
  langs : List (String × Language)
  ides : List (String × IDE)
  os : String
deriving DecidableEq, Repr

/-- Python errors that the embedded code can raise; `systemExit` carries the
error message printed immediately before `exit()`. -/
inductive PyError where
  | ioError (p : String)
  | keyError (k : String)
  | attributeError (a : String)
  | typeError (m : String)
  | notADirectory (p : String)
  | nameError (n : String)
  | systemExit (msg : String)
deriving DecidableEq, Repr

/-! ## Registry initialization (src/codeforge.py:324-347, classes.py) -/

/-- `Language.__init__` followed by registration
(src/modules/classes.py:13-32).  The registry stores the object itself, so
the shebang normalization performed after the `Language.languages[...] = self`
assignment is visible through the registry. -/
def registerLanguage (regs : List (String × Language)) (key : String)
    (e : LangEntry) : List (String × Language) :=
  let lang : Language :=
    { name := strLower key
      language := strLower e.language
      extension := strLower e.extension
      shebang :=
        match e.shebang with
        | none => none
        | some s => if pyStartsWith s "#!" then some s else some ("#!" ++ s)
      gitignore := e.gitignore.getD "" }
  dictSet regs lang.name lang

/-- The language-loading loop of `initialize` (src/codeforge.py:334-340):
`shebang = value.get("shebang", None)`, `gitignore = value.get("gitignore", "")`. -/
def initializeLangs (entries : List (String × LangEntry)) :
    List (String × Language) :=
  entries.foldl (fun regs kv => registerLanguage regs kv.1 kv.2) []

/-- The IDE-loading loop of `initialize` (src/codeforge.py:343-347).  The
source reads `getattr(value, "open_command", None)` where `value` is a dict:
`getattr` looks for an attribute, not a key, so the result is always `None`. -/
def initializeIdes (entries : List (String × IdeEntry)) :
    List (String × IDE) :=
  entries.foldl
    (fun regs kv =>
      dictSet regs kv.1
        { display_name := kv.1, name := strLower kv.2.name,
          open_command := none })
    []

/-- The configuration document written by `generate_json`
(src/codeforge.py:350-385 = src/modules/functions.py:190-223). -/
def generateJsonConfig : Config :=
  let languages : List (String × LangEntry) :=
    [("python",
      { language := "python", extension := "py",
        shebang := some "#!/usr/bin/env python3",
        gitignore := some "# Ignore __pycache__\n__pycache__/" }),
     ("cs_script",
      { language := "c#", extension := "csx",
        shebang := some "/usr/bin/env/ dotnet-script", gitignore := none }),
     ("cs_project",
      { language := "c#", extension := "cs",
        shebang := none, gitignore := none })]
  let ides : List (String × IdeEntry) :=
    [("VS Code", { name := "vscode", open_command := some "code %PATH%" })]
  let defaults : List (String × List (String × String)) :=
    languages.map
      (fun kv =>
        (kv.1,
         [("output_path", pathJoin (pathJoin "." "projects") kv.2.language),
          ("ide", "vscode")]))
  { languages := languages, ides := ides, defaults := defaults }

/-! ## Language and IDE resolution (src/modules/functions.py:10-73) -/

/-- The loop body of `get_language` (src/modules/functions.py:10-36,
identical to src/codeforge.py:254-280): iterate `Language.languages.values()`
in insertion order, skip entries whose `language` does not match
case-insensitively; on a match, a requested project variant for a non-C#
language exits, a C# project request returns `languages["cs_project"]`,
otherwise the matching profile is returned; falling off the loop exits with
the not-supported message. -/
def getLanguageLoop (values : List Language) (all : List (String × Language))
    (language_name : String) (project : Bool) : Except PyError Language :=
  match values with
  | [] =>
    .error (.systemExit ("language " ++ language_name ++ " not supported"))
  | value :: rest =>
    if !(strLower value.language = strLower language_name) then
      getLanguageLoop rest all language_name project
    else
      let value_name := strLower value.language
      if project && !(value_name = "c#") then
        .error (.systemExit
          "language chosen is not C# and thus does not support project toggle")
      else if value_name = "c#" && project then
        match dictGet all "cs_project" with
        | some l => .ok l
        | none => .error (.keyError "cs_project")
      else
        .ok value

/-- `get_language` (src/modules/functions.py:10-36). -/
def get_language (langs : List (String × Language)) (language_name : String)
    (project : Bool) : Except PyError Language :=
  getLanguageLoop (langs.map Prod.snd) langs language_name project

/-- `get_ides` (src/modules/functions.py:56-73): the deduplicated list of
registered IDE `name`s in registry order. -/
def get_ides (ides : List (String × IDE)) : List String :=
  ides.foldl
    (fun acc kv => if acc.contains kv.2.name then acc else acc ++ [kv.2.name])
    []

/-! ## DefaultsStore (src/modules/functions.py:108-187) -/

/-- `get_defaults` (src/modules/functions.py:108-137): when `config.json` is
absent it prints an error and returns `None` (`.ok none`); an unregistered
language exits; otherwise it reads `data["defaults"][language]`, raising
`KeyError` when the registered language has no defaults entry.  No lazy
creation happens on this path. -/
def get_defaults (w : World) (language_input : String) :
    Except PyError (Option (List (String × String))) :=
  match w.config with
  | none => .ok none
  | some cfg =>
    let language := strLower language_input
    if !(dictHas w.langs language) then
      .error (.systemExit ("Config for language " ++ language ++ " not found"))
    else
      match dictGet cfg.defaults language with
      | none => .error (.keyError language)
      | some d => .ok (some d)

/-- `update_defaults` (src/modules/functions.py:140-161): read-modify-write
of the whole config document, with no validation of `field` or `value`.
A missing `config.json` raises on `open`; a missing defaults entry for
`language` raises `KeyError`. -/
def update_defaults (w : World) (language field value : String) :
    Except PyError World :=
  match w.config with
  | none => .error (.ioError "config.json")
  | some cfg =>
    match dictGet cfg.defaults language with
    | none => .error (.keyError language)
    | some language_data =>
      let language_data := dictSet language_data field value
      let cfg := { cfg with defaults := dictSet cfg.defaults language language_data }
      .ok { w with config := some cfg }

/-- `generate_defaults` (src/modules/functions.py:164-187): if an entry for
`language_input` already exists it returns unchanged; otherwise the loop
assigns `default_data[language_input]` once per registered language, each
time with `output_path = join(".", "projects", <loop language id>)`, so the
surviving value uses the id of the *last* registered language. -/
def generate_defaults (w : World) (language_input : String) :
    Except PyError World :=
  match w.config with
  | none => .error (.ioError "config.json")
  | some cfg =>
    match dictGet cfg.defaults language_input with
    | some _ => .ok w
    | none =>
      let default_data :=
        w.langs.foldl
          (fun dd kv =>
            dictSet dd language_input
              [("output_path", pathJoin (pathJoin "." "projects") kv.1),
               ("ide", "vscode")])
          cfg.defaults
      .ok { w with config := some { cfg with defaults := default_data } }

/-! ## TemplateStore (src/modules/create_template.py) -/

/-- `get_file_path` (src/modules/create_template.py:4-12):
`abspath(join(".", "templates", language, filename) + ".txt")`, modelled in
canonical relative form. -/
def get_file_path (filename language : String) : String :=
  pathJoin (pathJoin "templates" language) filename ++ ".txt"

/-- Body of the python `hello world` template
(src/modules/create_template.py:59-60). -/
def pyHelloContent : String :=
  "# Description:\n# A simple \x27hello world\x27 file.\nprint(\"Hello, World!\")\n"

/-- Body of the python `if name main` template
(src/modules/create_template.py:68-75). -/
def pyMainContent : String :=
  "# Description:\n# A file with the \x27if name main\x27 boilerplate code.\ndef main():\n    print(\"Hello, World!\")\n\n\nif __name__ == \x27__main__\x27:\n    main()\n"

/-- Body of the C# `hello world` template
(src/modules/create_template.py:85-95), trailing spaces included. -/
def csHelloContent : String :=
  "# Description:\n# A simple \x27hello world\x27 file.\nnamespace project;\n\nclass Program\n\x7b\n    static void Main(string[] args)\n    \x7b\n        Console.WriteLine(\"Hello, World!\");                 \n    \x7d\n\x7d\n"

/-- Body of the universal `blank` template
(src/modules/create_template.py:103). -/
def blankContent : String := "# Description:\n# A blank file\n"

/-- One guarded seed step of `create_defaults`: `if not path.exists(p)`, write
the template and count it, else skip. -/
def seedIfAbsent (st : FS × Nat) (p c : String) : FS × Nat :=
  if st.1.existsPath p then st else (st.1.writeFile p c, st.2 + 1)

/-- The (path, content) seed sequence of `create_defaults` for a language:
the python pair, or the C# singleton, or nothing, always followed by the
universal `blank` template (src/modules/create_template.py:52-104). -/
def defaultTemplateSeeds (language : String) : List (String × String) :=
  (if language = "python" then
    [(get_file_path "hello world" "python", pyHelloContent),
     (get_file_path "if name main" "python", pyMainContent)]
   else if language = "c#" then
    [(get_file_path "hello world" "c#", csHelloContent)]
   else [])
  ++ [(get_file_path "blank" language, blankContent)]

/-- Fold of `seedIfAbsent` over a seed list. -/
def seedList (st : FS × Nat) : List (String × String) → FS × Nat
  | [] => st
  | (p, c) :: rest => seedList (seedIfAbsent st p c) rest

/-- `create_defaults` (src/modules/create_template.py:39-111):
`makedirs(join("templates", language), exist_ok=True)`, then the guarded
seeds in source order; returns the final filesystem together with the
`created` counter the source tracks for its messages. -/
def create_defaults (fs : FS) (language : String) : FS × Nat :=
  seedList (fs.makedirs (pathJoin "templates" language), 0)
    (defaultTemplateSeeds language)

/-- `create_template` (src/modules/create_template.py:15-36) with the
string-typed `language` its signature declares: seed the template
directory if absent, then write the two-line header with `open(..., "w+")`
(truncate-or-create — an existing record is silently overwritten). -/
def create_template (fs : FS) (filename language desc : String) : FS :=
  let fs :=
    if !(fs.existsPath (pathJoin "templates" language)) then
      (create_defaults fs language).1
    else fs
  fs.writeFile (get_file_path filename language)
    ("# Description:\n# " ++ desc ++ "\n")

/-! ## CLI handlers for `template` and `default` (src/codeforge.py:129-164) -/

/-- Outcomes of the `template` subcommand. -/
inductive TemplateOutcome where
  | alreadyExists
  | created
deriving DecidableEq, Repr

/-- The `template` command branch of `handle_args`
(src/codeforge.py:130-140).  The duplicate check tests
`path.exists(join(".", "templates", language.language, filename))` — without
the `.txt` suffix that stored templates carry.  When the check passes, the
source calls `create_template(args.name, language, args.description)` passing
the `Language` *object* as the `language` argument; inside `create_template`,
`os.path.join("templates", language)` then raises `TypeError`. -/
def handle_template (w : World) (name lang_arg _desc : String) :
    Except PyError (World × TemplateOutcome) :=
  match get_language w.langs lang_arg false with
  | .error e => .error e
  | .ok language =>
    let filename := strLower name
    if w.fs.existsPath (pathJoin (pathJoin "templates" language.language) filename) then
      .ok (w, .alreadyExists)
    else
      .error (.typeError "join argument must be str, not Language")

/-- Outcomes of the `default` subcommand. -/
inductive DefaultOutcome where
  | unknownField
  | invalidPath
  | unknownEditor
  | updated
deriving DecidableEq, Repr

/-- The `default` command branch of `handle_args`
(src/codeforge.py:143-164).  Line 146 reads `get_defaults(language.lname)`:
`Language` objects have no attribute `lname`, so every run raises
`AttributeError` right after language resolution; lines 147-163 are dead
code. -/
def handle_default (w : World) (lang_arg _field_arg _value_arg : String) :
    Except PyError (World × DefaultOutcome) :=
  match get_language w.langs lang_arg false with
  | .error e => .error e
  | .ok _language => .error (.attributeError "lname")

/-- The unreachable remainder of the `default` branch
(src/codeforge.py:147-163), embedded as if `defaults` had been obtained for
the resolved language: the path-existence validation is guarded by
`field == "output"` and the editor validation by `field == "ide"`, while the
stored field names are `output_path` and `ide`; all surviving cases fall
through to `update_defaults(language.name, field, value)`. -/
def handle_default_body (w : World) (language : Language)
    (defaults : List (String × String)) (field_arg value_arg : String) :
    Except PyError (World × DefaultOutcome) :=
  let field := strLower field_arg
  if !(dictHas defaults field) then
    .ok (w, .unknownField)
  else
    let value := value_arg
    if field = "output" && !(w.fs.existsPath value) then
      .ok (w, .invalidPath)
    else if field = "ide" && !((get_ides w.ides).contains value) then
      .ok (w, .unknownEditor)
    else
      match update_defaults w language.name field value with
      | .error e => .error e
      | .ok w2 => .ok (w2, .updated)

/-! ## ProjectMaterializer (src/modules/create_project.py) -/

/-- Observable collaborator invocations of `create_project`, in call order. -/
inductive Event where
  | confirmAsked
  | rmtreeCall (p : String)
  | makedirsCall (p : String)
  | removeCall (p : String)
  | writeFileCall (p : String)
  | systemCall (cmd : String)
deriving DecidableEq, Repr

/-- Terminal outcomes of a `create_project` run that does not raise:
the user-declined early return (`UserAborted` in the spec), the
missing-open-command early return, or running to the final `return`. -/
inductive Outcome where
  | aborted
  | ideCommandMissing
  | success
deriving DecidableEq, Repr

/-- A completed `create_project` run: the final state (side effects up to the
point of return or exception are kept — there is no rollback), the
collaborator trace, and the result. -/
structure CPRun where
  world : World
  trace : List Event
  result : Except PyError Outcome
deriving Repr

/-- Shell double-quoting as the f-strings of the source perform it. -/
def quoted (s : String) : String := "\"" ++ s ++ "\""

/-- Lines 83-96 of src/modules/create_project.py: the `open_project` branch.
`get_defaults(language.name)["ide"]` subscripts `None` (a `TypeError`) when
`config.json` was missing, and `IDE.ides[ide_dict]` raises `KeyError` when
the stored ide name is not a registry key; a `None` open command prints an
error and returns; otherwise `%PATH%` is substituted with the quoted
absolute path and the command is invoked. -/
def cp_open (w : World) (fs : FS) (ev : List Event) (language : Language)
    (project_path : String) (open_project : Bool) : CPRun :=
  if open_project then
    match get_defaults w language.name with
    | .error e => ⟨{ w with fs := fs }, ev, .error e⟩
    | .ok none =>
      ⟨{ w with fs := fs }, ev, .error (.typeError "NoneType is not subscriptable")⟩
    | .ok (some defaults) =>
      match dictGet defaults "ide" with
      | none => ⟨{ w with fs := fs }, ev, .error (.keyError "ide")⟩
      | some ide_dict =>
        match dictGet w.ides ide_dict with
        | none => ⟨{ w with fs := fs }, ev, .error (.keyError ide_dict)⟩
        | some ide =>
          match ide.open_command with
          | none => ⟨{ w with fs := fs }, ev, .ok .ideCommandMissing⟩
          | some ide_command =>
            let command := pyReplace ide_command "%PATH%" (quoted project_path)
            ⟨{ w with fs := fs }, ev ++ [.systemCall command], .ok .success⟩
  else
    ⟨{ w with fs := fs }, ev, .ok .success⟩

/-- Lines 71-81 of src/modules/create_project.py: the repository branch.
`next_command` (inlined here) is `&&` on Windows and `;` on Linux; on any
other operating system the source prints an error without assigning
`next_command`, and the following f-string raises `NameError`.  On the valid
platforms the `git init` command is invoked and then the
`gitignore` body of the profile is written to `<projectPath>/.gitignore`. -/
def cp_repo (w : World) (fs : FS) (ev : List Event) (language : Language)
    (project_path : String) (create_repo open_project : Bool) : CPRun :=
  if create_repo then
    if w.os = "Windows" || w.os = "Linux" then
      cp_open w
        (fs.writeFile (pathJoin project_path ".gitignore") language.gitignore)
        (ev ++
          [.systemCall ("cd " ++ quoted project_path ++ " " ++
             (if w.os = "Windows" then "&&" else ";") ++ " git init"),
           .writeFileCall (pathJoin project_path ".gitignore")])
        language project_path open_project
    else
      ⟨{ w with fs := fs }, ev, .error (.nameError "next_command")⟩
  else
    cp_open w fs ev language project_path open_project

/-- Lines 65-69 of src/modules/create_project.py: on Linux, mark the primary
file executable unless the language is C#. -/
def cp_chmod (w : World) (fs : FS) (ev : List Event) (project_name : String)
    (language : Language) (project_path : String)
    (create_repo open_project : Bool) : CPRun :=
  let ev :=
    if w.os = "Linux" && !(language.language = "c#") then
      ev ++ [.systemCall ("chmod +x " ++
        quoted (pathJoin project_path (project_name ++ "." ++ language.extension)))]
    else ev
  cp_repo w fs ev language project_path create_repo open_project

/-- Lines 48-52 of src/modules/create_project.py: the lines of the primary
file — the lines of the stored template with the first two (description header)
removed (`template_lines[2:]`), with the shebang line `f"{shebang}\n"`
inserted at position 0 when the shebang of the profile is truthy (not `None` and
not the empty string). -/
def generatedLines (language : Language) (tcontent : String) : List String :=
  let template_lines := (pyReadlines tcontent).drop 2
  match language.shebang with
  | none => template_lines
  | some s => if s = "" then template_lines else (s ++ "\n") :: template_lines

/-- The full content of the generated primary file (`writelines` of
`generatedLines`). -/
def generatedContent (language : Language) (tcontent : String) : String :=
  String.join (generatedLines language tcontent)

/-- Lines 45-63 of src/modules/create_project.py: read the stored template
(`IOError` when absent), compute its `generatedLines`, write them to the
primary file `<projectPath>/<projectName>.<extension>`, and, for a C#
project without the nullable toggle, rewrite the `.csproj` nullable marker
(`IOError` when the metadata file is absent). -/
def cp_write (w : World) (fs : FS) (ev : List Event) (project_name : String)
    (language : Language) (template : String)
    (nullable create_repo open_project : Bool) (project_path : String) : CPRun :=
  match fs.readFile (pathJoin (pathJoin "templates" language.language) template ++ ".txt") with
  | none =>
    ⟨{ w with fs := fs }, ev,
      .error (.ioError (pathJoin (pathJoin "templates" language.language) template ++ ".txt"))⟩
  | some tcontent =>
    if !nullable && language.extension = "cs" then
      match (fs.writeFile
          (pathJoin project_path (project_name ++ "." ++ language.extension))
          (generatedContent language tcontent)).readFile
          (pathJoin project_path (project_name ++ ".csproj")) with
      | none =>
        ⟨{ w with fs := (fs.writeFile
              (pathJoin project_path (project_name ++ "." ++ language.extension))
              (generatedContent language tcontent)) },
          ev ++ [.writeFileCall
            (pathJoin project_path (project_name ++ "." ++ language.extension))],
          .error (.ioError (pathJoin project_path (project_name ++ ".csproj")))⟩
      | some content =>
        cp_chmod w
          ((fs.writeFile
              (pathJoin project_path (project_name ++ "." ++ language.extension))
              (generatedContent language tcontent)).writeFile
            (pathJoin project_path (project_name ++ ".csproj"))
            (pyReplace content "<Nullable>enable</Nullable>" "<Nullable>disable</Nullable>"))
          (ev ++ [.writeFileCall
              (pathJoin project_path (project_name ++ "." ++ language.extension)),
            .writeFileCall (pathJoin project_path (project_name ++ ".csproj"))])
          project_name language project_path create_repo open_project
    else
      cp_chmod w
        (fs.writeFile
          (pathJoin project_path (project_name ++ "." ++ language.extension))
          (generatedContent language tcontent))
        (ev ++ [.writeFileCall
          (pathJoin project_path (project_name ++ "." ++ language.extension))])
        project_name language project_path create_repo open_project

/-- Lines 40-43 of src/modules/create_project.py: `makedirs(project_path)`,
then for extension `"cs"` invoke the external `dotnet` generator (its
filesystem effect is the collaborator parameter `extGen`) and delete the
`Program.cs` stub it produced (`os.remove` raises when the stub is absent). -/
def cp_afterConfirm (w : World) (fs : FS) (ev : List Event)
    (project_name : String) (language : Language) (template : String)
    (nullable create_repo open_project : Bool) (project_path : String)
    (extGen : String → String → FS → FS) : CPRun :=
  if language.extension = "cs" then
    match (extGen project_name project_path (fs.makedirs project_path)).readFile
        (pathJoin project_path "Program.cs") with
    | none =>
      ⟨{ w with fs := extGen project_name project_path (fs.makedirs project_path) },
        ev ++ [.makedirsCall project_path,
          .systemCall ("dotnet new console -n " ++ project_name ++ " -o " ++ quoted project_path)],
        .error (.ioError (pathJoin project_path "Program.cs"))⟩
    | some _ =>
      cp_write w
        ((extGen project_name project_path (fs.makedirs project_path)).removeFile
          (pathJoin project_path "Program.cs"))
        (ev ++ [.makedirsCall project_path,
          .systemCall ("dotnet new console -n " ++ project_name ++ " -o " ++ quoted project_path),
          .removeCall (pathJoin project_path "Program.cs")])
        project_name language template nullable create_repo open_project project_path
  else
    cp_write w (fs.makedirs project_path) (ev ++ [.makedirsCall project_path])
      project_name language template nullable create_repo open_project project_path

/-- `create_project` (src/modules/create_project.py:11-96).  Lines 32-40:
compute `projectPath`; when it already exists, ask the interactive
overwrite-confirmation collaborator (`resp` is its reply) — a reply whose
lowercase form is `"n"` prints `Exiting program` and returns with no
filesystem change, any other reply proceeds to `shutil.rmtree` (which raises
`NotADirectoryError` when the existing path is a plain file). -/
def create_project (w : World) (resp : String) (project_name : String)
    (language : Language) (template : String)
    (nullable create_repo open_project : Bool) (output : String)
    (extGen : String → String → FS → FS) : CPRun :=
  let project_path := pathJoin output project_name
  if w.fs.existsPath project_path then
    if strLower resp = "n" then
      ⟨w, [.confirmAsked], .ok .aborted⟩
    else
      if w.fs.dirs.contains project_path then
        cp_afterConfirm w (w.fs.rmtree project_path)
          [.confirmAsked, .rmtreeCall project_path] project_name language
          template nullable create_repo open_project project_path extGen
      else
        ⟨w, [.confirmAsked], .error (.notADirectory project_path)⟩
  else
    cp_afterConfirm w w.fs [] project_name language template nullable
      create_repo open_project project_path extGen

/-! ## The default registries, as loaded from the generated config -/

/-- The python profile as `initialize` registers it. -/
def pythonProfile : Language :=
  { name := "python", language := "python", extension := "py",
    shebang := some "#!/usr/bin/env python3",
    gitignore := "# Ignore __pycache__\n__pycache__/" }

/-- The C# script profile as `initialize` registers it (its shebang was
normalized by prepending `#!`). -/
def csScriptProfile : Language :=
  { name := "cs_script", language := "c#", extension := "csx",
    shebang := some "#!/usr/bin/env/ dotnet-script", gitignore := "" }

/-- The C# project profile as `initialize` registers it. -/
def csProjectProfile : Language :=
  { name := "cs_project", language := "c#", extension := "cs",
    shebang := none, gitignore := "" }

/-- The language registry after `initialize` on the generated config. -/
def defaultLangs : List (String × Language) :=
  initializeLangs generateJsonConfig.languages

/-- The IDE registry after `initialize` on the generated config. -/
def defaultIdes : List (String × IDE) :=
  initializeIdes generateJsonConfig.ides

/-- A filesystem holding the seeded python `blank` template and the default
python output directory. -/
def pyTemplatesFS : FS :=
  { files := [("templates/python/blank.txt", "# Description:\n# A blank file\n")],
    dirs := ["templates/python", "./projects/python"] }

/-- A process state right after `initialize` on the generated config, with
the python `blank` template seeded. -/
def seededWorld : World :=
  { fs := pyTemplatesFS, config := some generateJsonConfig,
    langs := defaultLangs, ides := defaultIdes, os := "Linux" }

/-- The same state with the target directory `./projects/python/demo`
already present on disk. -/
def seededWorldExisting : World :=
  { seededWorld with
    fs := { pyTemplatesFS with
              dirs := pyTemplatesFS.dirs ++ ["./projects/python/demo"] } }

/-! ## Basic lemmas about dictionaries and the filesystem model -/

theorem dictGet_dictSet {α : Type} (l : List (String × α)) (k : String) (v : α)
    (q : String) :
    dictGet (dictSet l k v) q = if q = k then some v else dictGet l q := by
  induction l with
  | nil => simp [dictSet, dictGet]
  | cons kv rest ih =>
    obtain ⟨k0, v0⟩ := kv
    by_cases h1 : k = k0
    · subst h1
      by_cases h2 : q = k <;> simp [dictSet, dictGet, h2]
    · by_cases h2 : q = k0
      · subst h2
        have h2' : ¬ q = k := fun h => h1 h.symm
        simp [dictSet, dictGet, h1, h2']
      · simp [dictSet, dictGet, h1, h2, ih]

theorem readFile_writeFile (fs : FS) (p c q : String) :
    (fs.writeFile p c).readFile q = if q = p then some c else fs.readFile q := by
  simp [FS.readFile, FS.writeFile, dictGet_dictSet]

theorem existsPath_writeFile (fs : FS) (p c q : String) :
    (fs.writeFile p c).existsPath q = if q = p then true else fs.existsPath q := by
  by_cases h : q = p <;>
    simp [FS.existsPath, FS.writeFile, dictHas, dictGet_dictSet, h]

theorem existsPath_of_readFile (fs : FS) (p c : String)
    (h : fs.readFile p = some c) : fs.existsPath p = true := by
  simp [FS.existsPath, dictHas, FS.readFile] at *
  simp [h]

theorem readFile_makedirs (fs : FS) (d p : String) :
    (fs.makedirs d).readFile p = fs.readFile p := by
  unfold FS.makedirs
  split <;> rfl

theorem dirs_writeFile (fs : FS) (p c : String) :
    (fs.writeFile p c).dirs = fs.dirs := rfl

theorem makedirs_contains_self (fs : FS) (d : String) :
    (fs.makedirs d).dirs.contains d = true := by
  unfold FS.makedirs
  split
  · assumption
  · simp

theorem makedirs_of_contains (fs : FS) (d : String)
    (h : fs.dirs.contains d = true) : fs.makedirs d = fs := by
  unfold FS.makedirs
  simp [h]
  intro hmem
  exact absurd (by simpa using h) hmem

/-! ## Lemmas about template seeding -/

theorem seedList_dirs (L : List (String × String)) (st : FS × Nat) :
    (seedList st L).1.dirs = st.1.dirs := by
  induction L generalizing st with
  | nil => rfl
  | cons pc rest ih =>
    obtain ⟨p, c⟩ := pc
    rw [seedList, ih]
    unfold seedIfAbsent
    split <;> rfl

theorem seedList_readFile_mono (L : List (String × String)) (st : FS × Nat)
    (p c : String) (h : st.1.readFile p = some c) :
    (seedList st L).1.readFile p = some c := by
  induction L generalizing st with
  | nil => exact h
  | cons qc rest ih =>
    obtain ⟨q, cq⟩ := qc
    rw [seedList]
    apply ih
    unfold seedIfAbsent
    split
    · exact h
    · next hq =>
      have hne : p ≠ q := by
        intro he
        subst he
        exact hq (existsPath_of_readFile _ _ _ h)
      simpa [readFile_writeFile, hne] using h

theorem seedList_existsPath_mono (L : List (String × String)) (st : FS × Nat)
    (p : String) (h : st.1.existsPath p = true) :
    (seedList st L).1.existsPath p = true := by
  induction L generalizing st with
  | nil => exact h
  | cons qc rest ih =>
    obtain ⟨q, cq⟩ := qc
    rw [seedList]
    apply ih
    unfold seedIfAbsent
    split
    · exact h
    · by_cases hpq : p = q <;> simp [existsPath_writeFile, hpq, h]

theorem seedList_ensures (L : List (String × String)) (st : FS × Nat) :
    ∀ pc ∈ L, (seedList st L).1.existsPath pc.1 = true := by
  induction L generalizing st with
  | nil => intro pc hpc; cases hpc
  | cons qc rest ih =>
    intro pc hpc
    obtain ⟨q, cq⟩ := qc
    rw [seedList]
    rcases List.mem_cons.mp hpc with hhd | htl
    · subst hhd
      apply seedList_existsPath_mono
      unfold seedIfAbsent
      split
      · assumption
      · simp [existsPath_writeFile]
    · exact ih (seedIfAbsent st (q, cq).1 (q, cq).2) pc htl

theorem seedList_skip (L : List (String × String)) (st : FS × Nat)
    (h : ∀ pc ∈ L, st.1.existsPath pc.1 = true) : seedList st L = st := by
  induction L with
  | nil => rfl
  | cons qc rest ih =>
    obtain ⟨q, cq⟩ := qc
    rw [seedList]
    have hq : st.1.existsPath q = true := h (q, cq) (by simp)
    have hst : seedIfAbsent st q cq = st := by
      unfold seedIfAbsent
      simp [hq]
    rw [hst]
    exact ih (fun pc hpc => h pc (by simp [hpc]))

/-- Running `create_defaults` a second time is the identity on the state. -/
theorem create_defaults_again (fs : FS) (language : String) :
    create_defaults (create_defaults fs language).1 language
      = ((create_defaults fs language).1, 0) := by
  have hdir : (create_defaults fs language).1.dirs.contains
      (pathJoin "templates" language) = true := by
    unfold create_defaults
    rw [seedList_dirs]
    exact makedirs_contains_self fs _
  show seedList ((create_defaults fs language).1.makedirs _, 0) _ = _
  rw [makedirs_of_contains _ _ hdir]
  apply seedList_skip
  intro pc hpc
  unfold create_defaults
  exact seedList_ensures _ _ pc hpc

/-- Claim C7: seeding default templates is idempotent and non-destructive.  Running
`create_defaults` twice yields exactly the filesystem of one run, the second
run creates zero new records, and any pre-existing file — in particular a
template whose name collides with a built-in such as `blank` or
`hello world` — keeps its exact content (and no error can occur: the
function is total). -/
theorem create_defaults_idempotent_nondestructive (fs : FS) (language : String) :
    (create_defaults (create_defaults fs language).1 language).1
        = (create_defaults fs language).1
    ∧ (create_defaults (create_defaults fs language).1 language).2 = 0
    ∧ ∀ p c, fs.readFile p = some c →
        (create_defaults fs language).1.readFile p = some c := by
  refine ⟨?_, ?_, ?_⟩
  · rw [create_defaults_again]
  · rw [create_defaults_again]
  · intro p c h
    unfold create_defaults
    apply seedList_readFile_mono
    simpa [readFile_makedirs] using h

/-- Witness for claim C7 at a concrete state: a filesystem already holding a
user-supplied `blank` template for python; the second run changes nothing,
creates zero records, and the colliding pre-existing template survives with
its exact content. -/
theorem create_defaults_idempotent_nondestructive_witness :
    (create_defaults
        (create_defaults ⟨[("templates/python/blank.txt", "custom body")], []⟩ "python").1
        "python").1
      = (create_defaults ⟨[("templates/python/blank.txt", "custom body")], []⟩ "python").1
    ∧ (create_defaults
        (create_defaults ⟨[("templates/python/blank.txt", "custom body")], []⟩ "python").1
        "python").2 = 0
    ∧ (create_defaults ⟨[("templates/python/blank.txt", "custom body")], []⟩ "python").1.readFile
        "templates/python/blank.txt" = some "custom body" := by
  obtain ⟨h1, h2, h3⟩ :=
    create_defaults_idempotent_nondestructive
      ⟨[("templates/python/blank.txt", "custom body")], []⟩ "python"
  exact ⟨h1, h2, h3 _ _ rfl⟩

theorem defaultLangs_eq :
    defaultLangs =
      [("python", pythonProfile), ("cs_script", csScriptProfile),
       ("cs_project", csProjectProfile)] := by
  rfl

/-! ## Shebang normalization invariant -/

theorem pyStartsWith_hashbang_append (t : String) :
    pyStartsWith ("#!" ++ t) "#!" = true := by
  unfold pyStartsWith
  rw [show ("#!" ++ t).data = '#' :: '!' :: t.data from by
    rw [String.data_append, show "#!".data = ['#', '!'] from by decide]
    rfl]
  rfl

theorem registerLanguage_shebang (regs : List (String × Language))
    (key : String) (e : LangEntry) (k : String) (lang : Language) (s : String)
    (h1 : dictGet (registerLanguage regs key e) k = some lang)
    (h2 : lang.shebang = some s)
    (hregs : ∀ k' l' s', dictGet regs k' = some l' → l'.shebang = some s' →
      pyStartsWith s' "#!" = true) :
    pyStartsWith s "#!" = true := by
  unfold registerLanguage at h1
  rw [dictGet_dictSet] at h1
  split at h1
  · cases h1
    cases he : e.shebang with
    | none => simp [he] at h2
    | some s0 =>
      rw [he] at h2
      by_cases hsw : pyStartsWith s0 "#!" = true
      · simp only [hsw, if_true] at h2
        cases h2
        exact hsw
      · simp only [hsw, Bool.not_eq_true] at h2
        simp [Bool.eq_false_iff.mpr hsw] at h2
        subst h2
        exact pyStartsWith_hashbang_append s0
  · exact hregs k lang s h1 h2

theorem foldl_registerLanguage_shebang (entries : List (String × LangEntry))
    (regs : List (String × Language))
    (hregs : ∀ k l s, dictGet regs k = some l → l.shebang = some s →
      pyStartsWith s "#!" = true) :
    ∀ k lang s,
      dictGet (entries.foldl (fun r kv => registerLanguage r kv.1 kv.2) regs) k
        = some lang →
      lang.shebang = some s → pyStartsWith s "#!" = true := by
  induction entries generalizing regs with
  | nil => exact hregs
  | cons e rest ih =>
    simp only [List.foldl_cons]
    exact ih _
      (fun k l s h1 h2 => registerLanguage_shebang regs e.1 e.2 k l s h1 h2 hregs)

/-- Claim C9: every profile observable through the language registry whose
shebang is present carries a shebang beginning with the two characters `#!`
(a shebang supplied without that marker is normalized by prepending it in
`Language.__init__`, and although the normalization is written after the
registration assignment, the registry holds the very same object).  The
registry is built once by `initialize` and no operation of the embedded core
ever replaces it, so the invariant holds for the whole process lifetime. -/
theorem registry_shebang_normalized (entries : List (String × LangEntry))
    (k : String) (lang : Language) (s : String)
    (h1 : dictGet (initializeLangs entries) k = some lang)
    (h2 : lang.shebang = some s) :
    pyStartsWith s "#!" = true := by
  refine foldl_registerLanguage_shebang entries [] ?_ k lang s h1 h2
  intro k l s h
  simp [dictGet] at h

/-- Witness for claim C9: the C# script profile of the default registry was
registered with the shebang `/usr/bin/env/ dotnet-script` from the config,
and is observed through the registry with the `#!` marker prepended. -/
theorem registry_shebang_normalized_witness :
    pyStartsWith "#!/usr/bin/env/ dotnet-script" "#!" = true :=
  registry_shebang_normalized generateJsonConfig.languages "cs_script"
    csScriptProfile "#!/usr/bin/env/ dotnet-script" (by rfl) (by rfl)

/-! ## Claim C6: language resolution -/

/-- Claim C6: `get_language` matches the requested name case-insensitively
against profile display names over the registry loaded from the generated
config.  A project-variant request for a matched display name other than C#
fails with the unsupported-variant exit; the shared display name `c#` is a
two-to-one mapping in which the flag selects between the distinct
`cs_project` and `cs_script` profiles; and an unmatched display name fails
with the not-supported exit. -/
theorem get_language_resolution (s : String) (proj : Bool) :
    (strLower s = "python" →
       get_language defaultLangs s false = .ok pythonProfile
       ∧ get_language defaultLangs s true = .error (.systemExit
           "language chosen is not C# and thus does not support project toggle"))
    ∧ (strLower s = "c#" →
       get_language defaultLangs s true = .ok csProjectProfile
       ∧ get_language defaultLangs s false = .ok csScriptProfile)
    ∧ (strLower s ≠ "python" → strLower s ≠ "c#" →
       get_language defaultLangs s proj = .error (.systemExit
           ("language " ++ s ++ " not supported"))) := by
  have e1 : strLower "python" = "python" := by decide
  have e2 : strLower "c#" = "c#" := by decide
  have e3 : strLower "py" = "py" := by decide
  have e4 : strLower "csx" = "csx" := by decide
  have e5 : strLower "cs" = "cs" := by decide
  have e6 : strLower "cs_script" = "cs_script" := by decide
  have e7 : strLower "cs_project" = "cs_project" := by decide
  have e8 : pyStartsWith "#!/usr/bin/env python3" "#!" = true := by decide
  have e9 : pyStartsWith "/usr/bin/env/ dotnet-script" "#!" = false := by decide
  refine ⟨?_, ?_, ?_⟩
  · intro h
    constructor <;>
      simp [get_language, defaultLangs_eq, getLanguageLoop, dictGet,
        pythonProfile, csScriptProfile, csProjectProfile,
        e1, e2, e3, e4, e5, e6, e7, e8, e9, h]
  · intro h
    constructor <;>
      simp [get_language, defaultLangs_eq, getLanguageLoop, dictGet,
        pythonProfile, csScriptProfile, csProjectProfile,
        e1, e2, e3, e4, e5, e6, e7, e8, e9, h]
  · intro h1 h2
    simp [get_language, defaultLangs_eq, getLanguageLoop, dictGet,
      pythonProfile, csScriptProfile, csProjectProfile,
      e1, e2, e3, e4, e5, e6, e7, e8, e9, Ne.symm h1, Ne.symm h2]

/-- Witness for claim C6: concrete resolutions — `"Python"` resolves
case-insensitively, the project flag on `"C#"` picks `cs_project` while its
absence picks `cs_script`, the project flag on python exits with the
unsupported-variant message, and `"rust"` exits with the not-supported
message. -/
theorem get_language_resolution_witness :
    get_language defaultLangs "Python" false = .ok pythonProfile
    ∧ get_language defaultLangs "Python" true = .error (.systemExit
        "language chosen is not C# and thus does not support project toggle")
    ∧ get_language defaultLangs "C#" true = .ok csProjectProfile
    ∧ get_language defaultLangs "C#" false = .ok csScriptProfile
    ∧ get_language defaultLangs "rust" true = .error (.systemExit
        "language rust not supported") := by
  refine ⟨((get_language_resolution "Python" false).1 (by decide)).1,
    ((get_language_resolution "Python" true).1 (by decide)).2,
    ((get_language_resolution "C#" true).2.1 (by decide)).1,
    ((get_language_resolution "C#" false).2.1 (by decide)).2,
    (get_language_resolution "rust" true).2.2 (by decide) (by decide)⟩

/-! ## Trace and state lemmas for the materializer phases -/

theorem cp_open_trace_ext (w : World) (fs : FS) (ev : List Event)
    (language : Language) (project_path : String) (op : Bool) :
    ∃ rest, (cp_open w fs ev language project_path op).trace = ev ++ rest := by
  unfold cp_open
  cases op with
  | false => exact ⟨[], by simp⟩
  | true =>
    cases hgd : get_defaults w language.name with
    | error e => exact ⟨[], by simp [hgd]⟩
    | ok od =>
      cases od with
      | none => exact ⟨[], by simp [hgd]⟩
      | some defaults =>
        cases hide : dictGet defaults "ide" with
        | none => exact ⟨[], by simp [hgd, hide]⟩
        | some ide_dict =>
          cases hreg : dictGet w.ides ide_dict with
          | none => exact ⟨[], by simp [hgd, hide, hreg]⟩
          | some ide =>
            cases hoc : ide.open_command with
            | none => exact ⟨[], by simp [hgd, hide, hreg, hoc]⟩
            | some cmd =>
              exact ⟨[Event.systemCall (pyReplace cmd "%PATH%" (quoted project_path))],
                by simp [hgd, hide, hreg, hoc]⟩

theorem cp_open_no_confirm (w : World) (fs : FS) (ev : List Event)
    (language : Language) (project_path : String) (op : Bool)
    (h : Event.confirmAsked ∉ ev) :
    Event.confirmAsked ∉ (cp_open w fs ev language project_path op).trace := by
  unfold cp_open
  cases op with
  | false => simpa using h
  | true =>
    cases hgd : get_defaults w language.name with
    | error e => simpa [hgd] using h
    | ok od =>
      cases od with
      | none => simpa [hgd] using h
      | some defaults =>
        cases hide : dictGet defaults "ide" with
        | none => simpa [hgd, hide] using h
        | some ide_dict =>
          cases hreg : dictGet w.ides ide_dict with
          | none => simpa [hgd, hide, hreg] using h
          | some ide =>
            cases hoc : ide.open_command with
            | none => simpa [hgd, hide, hreg, hoc] using h
            | some cmd => simp [hgd, hide, hreg, hoc, h]

theorem cp_open_not_aborted (w : World) (fs : FS) (ev : List Event)
    (language : Language) (project_path : String) (op : Bool) :
    (cp_open w fs ev language project_path op).result ≠ .ok .aborted := by
  unfold cp_open
  cases op with
  | false => simp
  | true =>
    cases hgd : get_defaults w language.name with
    | error e => simp [hgd]
    | ok od =>
      cases od with
      | none => simp [hgd]
      | some defaults =>
        cases hide : dictGet defaults "ide" with
        | none => simp [hgd, hide]
        | some ide_dict =>
          cases hreg : dictGet w.ides ide_dict with
          | none => simp [hgd, hide, hreg]
          | some ide =>
            cases hoc : ide.open_command with
            | none => simp [hgd, hide, hreg, hoc]
            | some cmd => simp [hgd, hide, hreg, hoc]

theorem cp_repo_trace_ext (w : World) (fs : FS) (ev : List Event)
    (language : Language) (project_path : String) (cr op : Bool) :
    ∃ rest, (cp_repo w fs ev language project_path cr op).trace = ev ++ rest := by
  unfold cp_repo
  cases cr with
  | false => simpa using cp_open_trace_ext w fs ev language project_path op
  | true =>
    rw [if_pos rfl]
    split
    · obtain ⟨r, hr⟩ := cp_open_trace_ext w
        (fs.writeFile (pathJoin project_path ".gitignore") language.gitignore)
        (ev ++ [Event.systemCall ("cd " ++ quoted project_path ++ " " ++
            (if w.os = "Windows" then "&&" else ";") ++ " git init"),
          Event.writeFileCall (pathJoin project_path ".gitignore")])
        language project_path op
      exact ⟨_, by rw [hr, List.append_assoc]⟩
    · exact ⟨[], by simp⟩

theorem cp_repo_no_confirm (w : World) (fs : FS) (ev : List Event)
    (language : Language) (project_path : String) (cr op : Bool)
    (h : Event.confirmAsked ∉ ev) :
    Event.confirmAsked ∉ (cp_repo w fs ev language project_path cr op).trace := by
  unfold cp_repo
  cases cr with
  | false => simpa using cp_open_no_confirm w fs ev language project_path op h
  | true =>
    rw [if_pos rfl]
    split
    · exact cp_open_no_confirm w
        (fs.writeFile (pathJoin project_path ".gitignore") language.gitignore)
        (ev ++ [Event.systemCall ("cd " ++ quoted project_path ++ " " ++
            (if w.os = "Windows" then "&&" else ";") ++ " git init"),
          Event.writeFileCall (pathJoin project_path ".gitignore")])
        language project_path op (by simp [h])
    · exact h

theorem cp_repo_not_aborted (w : World) (fs : FS) (ev : List Event)
    (language : Language) (project_path : String) (cr op : Bool) :
    (cp_repo w fs ev language project_path cr op).result ≠ .ok .aborted := by
  unfold cp_repo
  cases cr with
  | false => simpa using cp_open_not_aborted w fs ev language project_path op
  | true =>
    rw [if_pos rfl]
    split
    · exact cp_open_not_aborted w
        (fs.writeFile (pathJoin project_path ".gitignore") language.gitignore)
        (ev ++ [Event.systemCall ("cd " ++ quoted project_path ++ " " ++
            (if w.os = "Windows" then "&&" else ";") ++ " git init"),
          Event.writeFileCall (pathJoin project_path ".gitignore")])
        language project_path op
    · simp

theorem cp_chmod_trace_ext (w : World) (fs : FS) (ev : List Event)
    (project_name : String) (language : Language) (project_path : String)
    (cr op : Bool) :
    ∃ rest, (cp_chmod w fs ev project_name language project_path cr op).trace
      = ev ++ rest := by
  unfold cp_chmod
  split
  · obtain ⟨r, hr⟩ := cp_repo_trace_ext w fs
      (ev ++ [Event.systemCall ("chmod +x " ++
        quoted (pathJoin project_path (project_name ++ "." ++ language.extension)))])
      language project_path cr op
    exact ⟨_, by rw [hr, List.append_assoc]⟩
  · exact cp_repo_trace_ext w fs ev language project_path cr op

theorem cp_chmod_no_confirm (w : World) (fs : FS) (ev : List Event)
    (project_name : String) (language : Language) (project_path : String)
    (cr op : Bool) (h : Event.confirmAsked ∉ ev) :
    Event.confirmAsked ∉
      (cp_chmod w fs ev project_name language project_path cr op).trace := by
  unfold cp_chmod
  split
  · exact cp_repo_no_confirm w fs
      (ev ++ [Event.systemCall ("chmod +x " ++
        quoted (pathJoin project_path (project_name ++ "." ++ language.extension)))])
      language project_path cr op (by simp [h])
  · exact cp_repo_no_confirm w fs ev language project_path cr op h

theorem cp_chmod_not_aborted (w : World) (fs : FS) (ev : List Event)
    (project_name : String) (language : Language) (project_path : String)
    (cr op : Bool) :
    (cp_chmod w fs ev project_name language project_path cr op).result
      ≠ .ok .aborted := by
  unfold cp_chmod
  split
  · exact cp_repo_not_aborted w fs
      (ev ++ [Event.systemCall ("chmod +x " ++
        quoted (pathJoin project_path (project_name ++ "." ++ language.extension)))])
      language project_path cr op
  · exact cp_repo_not_aborted w fs ev language project_path cr op

theorem cp_write_trace_ext (w : World) (fs : FS) (ev : List Event)
    (project_name : String) (language : Language) (template : String)
    (nullable cr op : Bool) (project_path : String) :
    ∃ rest, (cp_write w fs ev project_name language template nullable cr op
      project_path).trace = ev ++ rest := by
  unfold cp_write
  cases hT : fs.readFile
      (pathJoin (pathJoin "templates" language.language) template ++ ".txt") with
  | none => exact ⟨[], by simp⟩
  | some tcontent =>
    dsimp only
    split
    · cases hcj : (fs.writeFile
          (pathJoin project_path (project_name ++ "." ++ language.extension))
          (generatedContent language tcontent)).readFile
          (pathJoin project_path (project_name ++ ".csproj")) with
      | none =>
        exact ⟨[Event.writeFileCall
          (pathJoin project_path (project_name ++ "." ++ language.extension))], by simp⟩
      | some content =>
        dsimp only
        obtain ⟨r, hr⟩ := cp_chmod_trace_ext w
          ((fs.writeFile
              (pathJoin project_path (project_name ++ "." ++ language.extension))
              (generatedContent language tcontent)).writeFile
            (pathJoin project_path (project_name ++ ".csproj"))
            (pyReplace content "<Nullable>enable</Nullable>" "<Nullable>disable</Nullable>"))
          (ev ++ [Event.writeFileCall
              (pathJoin project_path (project_name ++ "." ++ language.extension)),
            Event.writeFileCall (pathJoin project_path (project_name ++ ".csproj"))])
          project_name language project_path cr op
        exact ⟨_, by rw [hr, List.append_assoc]⟩
    · obtain ⟨r, hr⟩ := cp_chmod_trace_ext w
        (fs.writeFile
          (pathJoin project_path (project_name ++ "." ++ language.extension))
          (generatedContent language tcontent))
        (ev ++ [Event.writeFileCall
          (pathJoin project_path (project_name ++ "." ++ language.extension))])
        project_name language project_path cr op
      exact ⟨_, by rw [hr, List.append_assoc]⟩

theorem cp_write_no_confirm (w : World) (fs : FS) (ev : List Event)
    (project_name : String) (language : Language) (template : String)
    (nullable cr op : Bool) (project_path : String)
    (h : Event.confirmAsked ∉ ev) :
    Event.confirmAsked ∉ (cp_write w fs ev project_name language template
      nullable cr op project_path).trace := by
  unfold cp_write
  cases hT : fs.readFile
      (pathJoin (pathJoin "templates" language.language) template ++ ".txt") with
  | none => simpa using h
  | some tcontent =>
    dsimp only
    split
    · cases hcj : (fs.writeFile
          (pathJoin project_path (project_name ++ "." ++ language.extension))
          (generatedContent language tcontent)).readFile
          (pathJoin project_path (project_name ++ ".csproj")) with
      | none => simp [h]
      | some content =>
        exact cp_chmod_no_confirm w
          ((fs.writeFile
              (pathJoin project_path (project_name ++ "." ++ language.extension))
              (generatedContent language tcontent)).writeFile
            (pathJoin project_path (project_name ++ ".csproj"))
            (pyReplace content "<Nullable>enable</Nullable>" "<Nullable>disable</Nullable>"))
          (ev ++ [Event.writeFileCall
              (pathJoin project_path (project_name ++ "." ++ language.extension)),
            Event.writeFileCall (pathJoin project_path (project_name ++ ".csproj"))])
          project_name language project_path cr op (by simp [h])
    · exact cp_chmod_no_confirm w
        (fs.writeFile
          (pathJoin project_path (project_name ++ "." ++ language.extension))
          (generatedContent language tcontent))
        (ev ++ [Event.writeFileCall
          (pathJoin project_path (project_name ++ "." ++ language.extension))])
        project_name language project_path cr op (by simp [h])

theorem cp_write_not_aborted (w : World) (fs : FS) (ev : List Event)
    (project_name : String) (language : Language) (template : String)
    (nullable cr op : Bool) (project_path : String) :
    (cp_write w fs ev project_name language template nullable cr op
      project_path).result ≠ .ok .aborted := by
  unfold cp_write
  cases hT : fs.readFile
      (pathJoin (pathJoin "templates" language.language) template ++ ".txt") with
  | none => simp
  | some tcontent =>
    dsimp only
    split
    · cases hcj : (fs.writeFile
          (pathJoin project_path (project_name ++ "." ++ language.extension))
          (generatedContent language tcontent)).readFile
          (pathJoin project_path (project_name ++ ".csproj")) with
      | none => simp
      | some content =>
        exact cp_chmod_not_aborted w
          ((fs.writeFile
              (pathJoin project_path (project_name ++ "." ++ language.extension))
              (generatedContent language tcontent)).writeFile
            (pathJoin project_path (project_name ++ ".csproj"))
            (pyReplace content "<Nullable>enable</Nullable>" "<Nullable>disable</Nullable>"))
          (ev ++ [Event.writeFileCall
              (pathJoin project_path (project_name ++ "." ++ language.extension)),
            Event.writeFileCall (pathJoin project_path (project_name ++ ".csproj"))])
          project_name language project_path cr op
    · exact cp_chmod_not_aborted w
        (fs.writeFile
          (pathJoin project_path (project_name ++ "." ++ language.extension))
          (generatedContent language tcontent))
        (ev ++ [Event.writeFileCall
          (pathJoin project_path (project_name ++ "." ++ language.extension))])
        project_name language project_path cr op

theorem cp_afterConfirm_trace_ext (w : World) (fs : FS) (ev : List Event)
    (project_name : String) (language : Language) (template : String)
    (nullable cr op : Bool) (project_path : String)
    (extGen : String → String → FS → FS) :
    ∃ rest, (cp_afterConfirm w fs ev project_name language template nullable
      cr op project_path extGen).trace
        = ev ++ Event.makedirsCall project_path :: rest := by
  unfold cp_afterConfirm
  split
  · cases hpc : (extGen project_name project_path (fs.makedirs project_path)).readFile
        (pathJoin project_path "Program.cs") with
    | none =>
      exact ⟨[Event.systemCall ("dotnet new console -n " ++ project_name ++
        " -o " ++ quoted project_path)], by simp⟩
    | some stub =>
      dsimp only
      obtain ⟨r, hr⟩ := cp_write_trace_ext w
        ((extGen project_name project_path (fs.makedirs project_path)).removeFile
          (pathJoin project_path "Program.cs"))
        (ev ++ [Event.makedirsCall project_path,
          Event.systemCall ("dotnet new console -n " ++ project_name ++ " -o " ++
            quoted project_path),
          Event.removeCall (pathJoin project_path "Program.cs")])
        project_name language template nullable cr op project_path
      exact ⟨_, by rw [hr, List.append_assoc]; rfl⟩
  · obtain ⟨r, hr⟩ := cp_write_trace_ext w (fs.makedirs project_path)
      (ev ++ [Event.makedirsCall project_path])
      project_name language template nullable cr op project_path
    exact ⟨_, by rw [hr, List.append_assoc]; rfl⟩

theorem cp_afterConfirm_no_confirm (w : World) (fs : FS) (ev : List Event)
    (project_name : String) (language : Language) (template : String)
    (nullable cr op : Bool) (project_path : String)
    (extGen : String → String → FS → FS) (h : Event.confirmAsked ∉ ev) :
    Event.confirmAsked ∉ (cp_afterConfirm w fs ev project_name language
      template nullable cr op project_path extGen).trace := by
  unfold cp_afterConfirm
  split
  · cases hpc : (extGen project_name project_path (fs.makedirs project_path)).readFile
        (pathJoin project_path "Program.cs") with
    | none => simp [h]
    | some stub =>
      exact cp_write_no_confirm w
        ((extGen project_name project_path (fs.makedirs project_path)).removeFile
          (pathJoin project_path "Program.cs"))
        (ev ++ [Event.makedirsCall project_path,
          Event.systemCall ("dotnet new console -n " ++ project_name ++ " -o " ++
            quoted project_path),
          Event.removeCall (pathJoin project_path "Program.cs")])
        project_name language template nullable cr op project_path (by simp [h])
  · exact cp_write_no_confirm w (fs.makedirs project_path)
      (ev ++ [Event.makedirsCall project_path])
      project_name language template nullable cr op project_path (by simp [h])

theorem cp_afterConfirm_not_aborted (w : World) (fs : FS) (ev : List Event)
    (project_name : String) (language : Language) (template : String)
    (nullable cr op : Bool) (project_path : String)
    (extGen : String → String → FS → FS) :
    (cp_afterConfirm w fs ev project_name language template nullable cr op
      project_path extGen).result ≠ .ok .aborted := by
  unfold cp_afterConfirm
  split
  · cases hpc : (extGen project_name project_path (fs.makedirs project_path)).readFile
        (pathJoin project_path "Program.cs") with
    | none => simp
    | some stub =>
      exact cp_write_not_aborted w
        ((extGen project_name project_path (fs.makedirs project_path)).removeFile
          (pathJoin project_path "Program.cs"))
        (ev ++ [Event.makedirsCall project_path,
          Event.systemCall ("dotnet new console -n " ++ project_name ++ " -o " ++
            quoted project_path),
          Event.removeCall (pathJoin project_path "Program.cs")])
        project_name language template nullable cr op project_path
  · exact cp_write_not_aborted w (fs.makedirs project_path)
      (ev ++ [Event.makedirsCall project_path])
      project_name language template nullable cr op project_path

theorem cp_open_world_fs (w : World) (fs : FS) (ev : List Event)
    (language : Language) (project_path : String) (op : Bool) :
    (cp_open w fs ev language project_path op).world.fs = fs := by
  unfold cp_open
  cases op with
  | false => simp
  | true =>
    cases hgd : get_defaults w language.name with
    | error e => simp [hgd]
    | ok od =>
      cases od with
      | none => simp [hgd]
      | some defaults =>
        cases hide : dictGet defaults "ide" with
        | none => simp [hgd, hide]
        | some ide_dict =>
          cases hreg : dictGet w.ides ide_dict with
          | none => simp [hgd, hide, hreg]
          | some ide =>
            cases hoc : ide.open_command with
            | none => simp [hgd, hide, hreg, hoc]
            | some cmd => simp [hgd, hide, hreg, hoc]

theorem cp_repo_world_readFile (w : World) (fs : FS) (ev : List Event)
    (language : Language) (project_path : String) (cr op : Bool) (q : String)
    (h : q ≠ pathJoin project_path ".gitignore") :
    (cp_repo w fs ev language project_path cr op).world.fs.readFile q
      = fs.readFile q := by
  unfold cp_repo
  cases cr with
  | false => rw [if_neg (by simp), cp_open_world_fs]
  | true =>
    rw [if_pos rfl]
    split
    · rw [cp_open_world_fs, readFile_writeFile]
      simp [h]
    · rfl

theorem cp_chmod_world_readFile (w : World) (fs : FS) (ev : List Event)
    (project_name : String) (language : Language) (project_path : String)
    (cr op : Bool) (q : String)
    (h : q ≠ pathJoin project_path ".gitignore") :
    (cp_chmod w fs ev project_name language project_path cr op).world.fs.readFile q
      = fs.readFile q := by
  unfold cp_chmod
  split
  · exact cp_repo_world_readFile w fs _ language project_path cr op q h
  · exact cp_repo_world_readFile w fs ev language project_path cr op q h

theorem pathJoin_ne_of_ne_length (p a b : String) (h : a.length ≠ b.length) :
    pathJoin p a ≠ pathJoin p b := by
  intro he
  apply h
  have hl := congrArg String.length he
  simp only [pathJoin, String.length_append] at hl
  omega

theorem primary_ne_csproj (project_path n : String) :
    pathJoin project_path (n ++ "." ++ "cs")
      ≠ pathJoin project_path (n ++ ".csproj") := by
  apply pathJoin_ne_of_ne_length
  rw [String.length_append, String.length_append, String.length_append]
  have h1 : ".".length = 1 := by decide
  have h2 : "cs".length = 2 := by decide
  have h3 : ".csproj".length = 7 := by decide
  omega

theorem pathJoin_right_ne (p a b : String) (h : a ≠ b) :
    pathJoin p a ≠ pathJoin p b := by
  intro he
  apply h
  have hd := congrArg String.data he
  simp only [pathJoin, String.data_append, List.append_assoc] at hd
  have h1 := List.append_cancel_left hd
  have h2 := List.append_cancel_left h1
  cases a
  cases b
  exact congrArg String.mk (by simpa using h2)

theorem cp_write_world_primary (w : World) (fs : FS) (ev : List Event)
    (project_name : String) (language : Language) (template : String)
    (nullable cr op : Bool) (project_path tcontent : String)
    (hT : fs.readFile (pathJoin (pathJoin "templates" language.language)
      template ++ ".txt") = some tcontent)
    (hgi : project_name ++ "." ++ language.extension ≠ ".gitignore") :
    (cp_write w fs ev project_name language template nullable cr op
      project_path).world.fs.readFile
        (pathJoin project_path (project_name ++ "." ++ language.extension))
      = some (generatedContent language tcontent) := by
  unfold cp_write
  rw [hT]
  dsimp only
  split
  · next hcs =>
    have hext : language.extension = "cs" := by
      simp [Bool.and_eq_true] at hcs
      exact hcs.2
    cases hcj : (fs.writeFile
        (pathJoin project_path (project_name ++ "." ++ language.extension))
        (generatedContent language tcontent)).readFile
        (pathJoin project_path (project_name ++ ".csproj")) with
    | none =>
      dsimp only
      rw [readFile_writeFile]
      simp
    | some content =>
      dsimp only
      rw [cp_chmod_world_readFile, readFile_writeFile, readFile_writeFile]
      · rw [hext]
        simp [primary_ne_csproj project_path project_name]
      · exact pathJoin_right_ne _ _ _ hgi
  · rw [cp_chmod_world_readFile, readFile_writeFile]
    · simp
    · exact pathJoin_right_ne _ _ _ hgi

/-- Claim C1: the overwrite-confirmation protocol of `create_project`.
When the computed `projectPath` does not yet exist, the confirmation
collaborator is never invoked.  When it exists and the user declines
(a reply whose lowercase form is `"n"`), the run returns the aborted outcome
with the whole world — in particular the filesystem — byte-for-byte
unchanged, and asking for confirmation was the only observable action.
When it exists as a directory and the user accepts, the recursive removal
of the existing directory happens directly after the confirmation and
before the first creation step (`makedirs`). -/
theorem materialize_overwrite_confirmation_protocol
    (w : World) (resp project_name : String) (language : Language)
    (template : String) (nullable create_repo open_project : Bool)
    (output : String) (extGen : String → String → FS → FS) :
    (w.fs.existsPath (pathJoin output project_name) = false →
      Event.confirmAsked ∉ (create_project w resp project_name language template
        nullable create_repo open_project output extGen).trace)
    ∧ (w.fs.existsPath (pathJoin output project_name) = true →
       strLower resp = "n" →
       (create_project w resp project_name language template nullable create_repo
         open_project output extGen).result = .ok .aborted
       ∧ (create_project w resp project_name language template nullable create_repo
         open_project output extGen).world = w
       ∧ (create_project w resp project_name language template nullable create_repo
         open_project output extGen).trace = [Event.confirmAsked])
    ∧ (w.fs.existsPath (pathJoin output project_name) = true →
       w.fs.dirs.contains (pathJoin output project_name) = true →
       strLower resp ≠ "n" →
       (create_project w resp project_name language template nullable create_repo
         open_project output extGen).trace.take 3
         = [Event.confirmAsked, Event.rmtreeCall (pathJoin output project_name),
            Event.makedirsCall (pathJoin output project_name)]) := by
  refine ⟨?_, ?_, ?_⟩
  · intro hne
    simp only [create_project, hne, Bool.false_eq_true, if_false]
    exact cp_afterConfirm_no_confirm w w.fs [] project_name language template
      nullable create_repo open_project (pathJoin output project_name) extGen
      (by simp)
  · intro hex hdec
    simp [create_project, hex, hdec]
  · intro hex hdir hdec
    simp only [create_project, hex, hdir, hdec, if_true, if_false]
    obtain ⟨rest, hr⟩ := cp_afterConfirm_trace_ext w
      (w.fs.rmtree (pathJoin output project_name))
      [Event.confirmAsked, Event.rmtreeCall (pathJoin output project_name)]
      project_name language template nullable create_repo open_project
      (pathJoin output project_name) extGen
    rw [hr]
    rfl

/-- Witness for claim C1 at concrete runs against the default registries:
a fresh target never asks for confirmation; an existing target with reply
`"N"` aborts, changes nothing and only asked; an existing target with the
consenting reply `""` shows confirmation, recursive removal, and directory
creation as the first three observable actions. -/
theorem materialize_overwrite_confirmation_protocol_witness :
    (Event.confirmAsked ∉ (create_project seededWorld
      "" "demo" pythonProfile "blank" false false false "./projects/python"
      (fun _ _ fs => fs)).trace)
    ∧ ((create_project seededWorldExisting
      "N" "demo" pythonProfile "blank" false false false "./projects/python"
      (fun _ _ fs => fs)).result = .ok .aborted)
    ∧ ((create_project seededWorldExisting
      "" "demo" pythonProfile "blank" false false false "./projects/python"
      (fun _ _ fs => fs)).trace.take 3
      = [Event.confirmAsked, Event.rmtreeCall (pathJoin "./projects/python" "demo"),
         Event.makedirsCall (pathJoin "./projects/python" "demo")]) := by
  refine ⟨?_, ?_, ?_⟩
  · exact (materialize_overwrite_confirmation_protocol seededWorld "" "demo"
      pythonProfile "blank" false false false "./projects/python"
      (fun _ _ fs => fs)).1 (by decide)
  · exact ((materialize_overwrite_confirmation_protocol seededWorldExisting "N"
      "demo" pythonProfile "blank" false false false "./projects/python"
      (fun _ _ fs => fs)).2.1 (by decide) (by decide)).1
  · exact (materialize_overwrite_confirmation_protocol seededWorldExisting ""
      "demo" pythonProfile "blank" false false false "./projects/python"
      (fun _ _ fs => fs)).2.2 (by decide) (by decide) (by decide)

/-- Claim C10 (implicit): when the target directory already exists, the run
aborts exactly when the confirmation reply lowercases to `"n"`; every other
reply — the empty string included — is treated as consent: the existing
directory is recursively deleted and materialization proceeds to directory
creation. -/
theorem overwrite_consent_interpretation
    (w : World) (resp project_name : String) (language : Language)
    (template : String) (nullable create_repo open_project : Bool)
    (output : String) (extGen : String → String → FS → FS)
    (hex : w.fs.existsPath (pathJoin output project_name) = true) :
    ((create_project w resp project_name language template nullable create_repo
        open_project output extGen).result = .ok .aborted
      ↔ strLower resp = "n")
    ∧ (strLower resp ≠ "n" →
       w.fs.dirs.contains (pathJoin output project_name) = true →
       Event.rmtreeCall (pathJoin output project_name) ∈
         (create_project w resp project_name language template nullable create_repo
           open_project output extGen).trace
       ∧ Event.makedirsCall (pathJoin output project_name) ∈
         (create_project w resp project_name language template nullable create_repo
           open_project output extGen).trace) := by
  constructor
  · constructor
    · intro habort
      by_contra hdec
      by_cases hdir : w.fs.dirs.contains (pathJoin output project_name) = true
      · simp only [create_project, hex, hdec, hdir, if_true, if_false] at habort
        exact cp_afterConfirm_not_aborted w
          (w.fs.rmtree (pathJoin output project_name))
          [Event.confirmAsked, Event.rmtreeCall (pathJoin output project_name)]
          project_name language template nullable create_repo open_project
          (pathJoin output project_name) extGen habort
      · simp at hdir
        simp [create_project, hex, hdec, hdir] at habort
    · intro hdec
      simp [create_project, hex, hdec]
  · intro hdec hdir
    simp only [create_project, hex, hdec, hdir, if_true, if_false]
    obtain ⟨rest, hr⟩ := cp_afterConfirm_trace_ext w
      (w.fs.rmtree (pathJoin output project_name))
      [Event.confirmAsked, Event.rmtreeCall (pathJoin output project_name)]
      project_name language template nullable create_repo open_project
      (pathJoin output project_name) extGen
    rw [hr]
    simp

/-- Witness for claim C10: with an existing target directory, the reply
`""` does not abort (`strLower "" ≠ "n"`), and the run recursively removes
the directory and creates it anew. -/
theorem overwrite_consent_interpretation_witness :
    ¬ ((create_project seededWorldExisting
      "" "demo" pythonProfile "blank" false false false "./projects/python"
      (fun _ _ fs => fs)).result = .ok .aborted)
    ∧ Event.rmtreeCall (pathJoin "./projects/python" "demo") ∈
        (create_project seededWorldExisting
          "" "demo" pythonProfile "blank" false false false "./projects/python"
          (fun _ _ fs => fs)).trace := by
  have h := overwrite_consent_interpretation seededWorldExisting
    "" "demo" pythonProfile "blank" false false false "./projects/python"
    (fun _ _ fs => fs) (by decide)
  refine ⟨fun hab => ?_, (h.2 (by decide) (by decide)).1⟩
  have hn := h.1.mp hab
  simp [strLower] at hn

theorem foldl_append_shift (l : List String) (s t : String) :
    l.foldl (fun r x => r ++ x) (s ++ t) = s ++ l.foldl (fun r x => r ++ x) t := by
  induction l generalizing t with
  | nil => rfl
  | cons b bs ih =>
    simp only [List.foldl_cons, String.append_assoc]
    exact ih (t ++ b)

theorem join_cons (a : String) (l : List String) :
    String.join (a :: l) = a ++ String.join l := by
  show l.foldl (fun r x => r ++ x) ("" ++ a) = a ++ l.foldl (fun r x => r ++ x) ""
  have h0 : "" ++ a = a ++ "" := by
    cases a
    apply congrArg String.mk
    simp [String.data_append]
  rw [h0, foldl_append_shift]

/-- Claim C2: the content of the generated primary file.  For every language
profile and template content, the file written at
`<projectPath>/<projectName>.<extension>` holds, and still holds at the end
of the run, exactly `generatedContent`: when the shebang of the profile is
truthy, the shebang followed by exactly one newline and then the stored
lines of the stored template with the first two (header) lines removed; when the
profile has no shebang (or an empty one), the body lines verbatim with
nothing prepended, so the first line of the file is the first body line.  The
last conjunct states the same for a full `create_project` run on a fresh
target for a profile that does not use the external generator. -/
theorem materialize_primary_file_content
    (w : World) (fs : FS) (ev : List Event) (resp project_name : String)
    (language : Language) (template : String)
    (nullable create_repo open_project : Bool)
    (project_path output tcontent : String)
    (extGen : String → String → FS → FS) :
    (fs.readFile (pathJoin (pathJoin "templates" language.language) template ++ ".txt")
        = some tcontent →
      project_name ++ "." ++ language.extension ≠ ".gitignore" →
      (cp_write w fs ev project_name language template nullable create_repo
        open_project project_path).world.fs.readFile
          (pathJoin project_path (project_name ++ "." ++ language.extension))
        = some (generatedContent language tcontent))
    ∧ (language.shebang = none →
        generatedContent language tcontent
          = String.join ((pyReadlines tcontent).drop 2))
    ∧ (∀ s, language.shebang = some s → ¬ s = "" →
        generatedContent language tcontent
          = s ++ "\n" ++ String.join ((pyReadlines tcontent).drop 2))
    ∧ (w.fs.existsPath (pathJoin output project_name) = false →
       ¬ language.extension = "cs" →
       w.fs.readFile (pathJoin (pathJoin "templates" language.language) template ++ ".txt")
         = some tcontent →
       project_name ++ "." ++ language.extension ≠ ".gitignore" →
       (create_project w resp project_name language template nullable create_repo
         open_project output extGen).world.fs.readFile
           (pathJoin (pathJoin output project_name)
             (project_name ++ "." ++ language.extension))
         = some (generatedContent language tcontent)) := by
  refine ⟨?_, ?_, ?_, ?_⟩
  · intro hT hgi
    exact cp_write_world_primary w fs ev project_name language template
      nullable create_repo open_project project_path tcontent hT hgi
  · intro h
    simp [generatedContent, generatedLines, h]
  · intro s hs hne
    simp only [generatedContent, generatedLines, hs, hne, if_false, if_neg hne]
    rw [join_cons, String.append_assoc]
  · intro hne hcs hT hgi
    simp only [create_project, hne, Bool.false_eq_true, if_false]
    unfold cp_afterConfirm
    rw [if_neg (by simp [hcs])]
    exact cp_write_world_primary w
      (w.fs.makedirs (pathJoin output project_name)) _ project_name language
      template nullable create_repo open_project (pathJoin output project_name)
      tcontent (by rw [readFile_makedirs]; exact hT) hgi

/-- Witness for claim C2: with the python profile
(`extension = "py"`, `shebang = "#!/usr/bin/env python3"`) and a stored
template `"# Description:\n# d\nprint(1)\n"`, the generated file is exactly
`"#!/usr/bin/env python3\nprint(1)\n"`; and a full run on the seeded world
with the `blank` template produces `demo.py` containing exactly the shebang
line. -/
theorem materialize_primary_file_content_witness :
    (cp_write seededWorld
      { files := [("templates/python/t.txt", "# Description:\n# d\nprint(1)\n")], dirs := [] }
      [] "demo" pythonProfile "t" false false false "p").world.fs.readFile
        (pathJoin "p" ("demo" ++ "." ++ pythonProfile.extension))
      = some (generatedContent pythonProfile "# Description:\n# d\nprint(1)\n")
    ∧ generatedContent pythonProfile "# Description:\n# d\nprint(1)\n"
      = "#!/usr/bin/env python3\nprint(1)\n"
    ∧ (create_project seededWorld "" "demo" pythonProfile "blank" false false
        false "./projects/python" (fun _ _ fs => fs)).world.fs.readFile
          (pathJoin (pathJoin "./projects/python" "demo")
            ("demo" ++ "." ++ pythonProfile.extension))
      = some (generatedContent pythonProfile "# Description:\n# A blank file\n")
    ∧ generatedContent pythonProfile "# Description:\n# A blank file\n"
      = "#!/usr/bin/env python3\n" := by
  refine ⟨?_, by decide, ?_, by decide⟩
  · exact (materialize_primary_file_content seededWorld
      { files := [("templates/python/t.txt", "# Description:\n# d\nprint(1)\n")], dirs := [] }
      [] "" "demo" pythonProfile "t" false false false "p" "out"
      "# Description:\n# d\nprint(1)\n" (fun _ _ fs => fs)).1
      (by decide) (by decide)
  · exact (materialize_primary_file_content seededWorld seededWorld.fs
      [] "" "demo" pythonProfile "blank" false false false "p"
      "./projects/python" "# Description:\n# A blank file\n"
      (fun _ _ fs => fs)).2.2.2
      (by decide) (by decide) (by decide) (by decide)

/-- Claim C3 (code bug): template creation does not implement the
duplicate-name protection the code itself attempts.  First conjunct: the
CLI `template` command crashes with `TypeError` even on a fresh name,
because `handle_args` passes the `Language` object itself into
`create_template`, which joins it as a path component.  Remaining
conjuncts: `create_template` proper (with the string-typed language of its
signature) called twice with the same name silently truncates and rewrites
the first record instead of failing, and the duplicate check of
`handle_args` can never fire because it tests the path without the `.txt`
suffix under which records are stored. -/
theorem template_create_duplicate_check_broken :
    handle_template seededWorld "foo" "python" "d"
      = .error (.typeError "join argument must be str, not Language")
    ∧ (create_template (create_template ⟨[], []⟩ "foo" "python" "first")
        "foo" "python" "second").readFile "templates/python/foo.txt"
      = some "# Description:\n# second\n"
    ∧ (create_template ⟨[], []⟩ "foo" "python" "first").readFile
        "templates/python/foo.txt" = some "# Description:\n# first\n"
    ∧ (create_template ⟨[], []⟩ "foo" "python" "first").existsPath
        "templates/python/foo" = false := by
  exact ⟨rfl, by decide, by decide, by decide⟩

/-- Claim C4 (code bug): the validation of the `default` command.  First
conjunct: every invocation raises `AttributeError` immediately after
language resolution, because line 146 of src/codeforge.py reads
`language.lname`, an attribute `Language` does not define.  Second
conjunct: even the validation code below that line (embedded as
`handle_default_body`) would persist a non-existent `output_path`, because
it guards the path-existence check with `field == "output"` while the
stored field is named `output_path` — the update succeeds and the stored
default is changed to the invalid path instead of failing. -/
theorem defaults_update_validation_broken :
    handle_default seededWorld "python" "output_path" "/does/not/exist"
      = .error (.attributeError "lname")
    ∧ (handle_default_body seededWorld pythonProfile
        [("output_path", "./projects/python"), ("ide", "vscode")]
        "output_path" "/does/not/exist").map
        (fun r => ((match r.1.config with
          | some c => dictGet c.defaults "python"
          | none => none), r.2))
      = .ok (some [("output_path", "/does/not/exist"), ("ide", "vscode")],
          .updated) := by
  exact ⟨rfl, rfl⟩

/-- Counterexample to claim C5: `get_defaults` does not lazily create a
missing defaults entry — for a registered language whose entry is absent
from `config.json` it raises `KeyError` instead of materializing the
fallback.  (`generate_defaults` exists in the source but is never invoked
by `get_defaults`.) -/
theorem defaults_get_missing_entry_fails :
    get_defaults
      { seededWorld with config := some { generateJsonConfig with defaults := [] } }
      "python" = .error (.keyError "python") := rfl

/-- Claim C5 as amended: for a registered language id, `get_defaults`
returns the stored defaults entry when one exists, and fails with
`KeyError` when the entry is missing — there is no lazy creation of a
fallback entry on read. -/
theorem defaults_get_returns_stored_entry (w : World) (cfg : Config)
    (language : String) (d : List (String × String))
    (hc : w.config = some cfg)
    (hl : dictHas w.langs (strLower language) = true) :
    (dictGet cfg.defaults (strLower language) = some d →
      get_defaults w language = .ok (some d))
    ∧ (dictGet cfg.defaults (strLower language) = none →
      get_defaults w language = .error (.keyError (strLower language))) := by
  constructor <;> intro hd <;> simp [get_defaults, hc, hl, hd]

/-- Witness for the amended claim C5: on the generated config, the python
entry is returned as stored. -/
theorem defaults_get_returns_stored_entry_witness :
    get_defaults seededWorld "python"
      = .ok (some [("output_path", "./projects/python"), ("ide", "vscode")]) := by
  exact (defaults_get_returns_stored_entry seededWorld generateJsonConfig
    "python" [("output_path", "./projects/python"), ("ide", "vscode")]
    (by rfl) (by decide)).1 (by decide)

/-- Claim C8 (code bug): resolving the default editor for `openAfterCreate`.
The defaults store holds the editor *name* `"vscode"`, but `IDE.ides` is
keyed by *display name* (`"VS Code"`), so `IDE.ides[ide_dict]` raises
`KeyError` (first conjunct; second and third conjuncts exhibit the registry
keying).  Independently, `initialize` loads `open_command` with
`getattr(value, "open_command", None)` on a dict — which always yields
`None` — although the config document does carry the command template
(fourth conjunct), so even a successful lookup would end in the
missing-open-command path rather than command invocation. -/
theorem open_project_editor_resolution_broken :
    (create_project seededWorld "" "demo" pythonProfile "blank" false false
      true "./projects/python" (fun _ _ fs => fs)).result
        = .error (.keyError "vscode")
    ∧ dictGet defaultIdes "vscode" = none
    ∧ dictGet defaultIdes "VS Code"
        = some { display_name := "VS Code", name := "vscode", open_command := none }
    ∧ (generateJsonConfig.ides.map (fun kv => (kv.1, kv.2.open_command)))
        = [("VS Code", some "code %PATH%")] := by
  exact ⟨rfl, rfl, rfl, rfl⟩

end CodeForge
